import Mathlib

/-!
Verification development for the decatholac-mango chapter-announcement bot.

The Rust sources are shallowly embedded: structs become Lean structures,
chrono datetimes (DateTime of Utc) become Int nanoseconds since the epoch,
fallible Rust code (anyhow Result, rusqlite errors, panics from unwrap)
becomes Except String, and the SQLite store becomes a functional state
value.  External library behaviour (chrono string parsing, the scraper
CSS-selector engine, feed-rs, the url crate) is kept abstract behind
small environment records of functions, since those crates are external
collaborators of the program under verification.
-/

namespace DMango

/-- Nanoseconds in one day; chrono Duration.days d equals d * 86400 seconds
and DateTime of Utc carries nanosecond precision. -/
def nsPerDay : Int := 86400000000000

/-- Mirror of structs.rs Server: identifier plus feed channel identifier. -/
structure Server where
  identifier : String
  feed_channel_identifier : String
deriving Repr, DecidableEq

/-- Mirror of the PartialEq impl for Server in structs.rs, which compares
only the identifier field. -/
def serverEq (a b : Server) : Bool :=
  a.identifier == b.identifier

/-- Mirror of structs.rs Chapter.  The date, logged_at and announced_at
fields are chrono datetimes, embedded as Int nanoseconds. -/
structure Chapter where
  manga : String
  number : String
  title : String
  date : Int
  url : String
  logged_at : Option Int
  announced_at : Int
deriving Repr, DecidableEq

/-- The record actually built by parse_rss in parsers/rss.rs: its Chapter
struct literal carries no announced_at field at all (the field required by
structs.rs is simply absent from that file), so the RSS output is embedded
with its own record type holding exactly the fields rss.rs assigns. -/
structure RssChapter where
  manga : String
  number : String
  title : String
  date : Int
  url : String
  logged_at : Option Int
deriving Repr, DecidableEq

/-- Mirror of structs.rs ParseMode. -/
inductive ParseMode where
  | rss
  | json
  | html
deriving Repr, DecidableEq

/-- Mirror of structs.rs JsonDateTimeFormat. -/
inductive JsonDateTimeFormat where
  | unixSec
  | unixMilli
  | unixNano
  | rfc2822
  | rfc3339
  | stringFormat (format : String)
deriving Repr, DecidableEq

/-- Embedding of serde_json Value.  Numbers are embedded as Int (the code
only ever reads them through as_i64); objects are association lists in
document order with the first binding of a key authoritative. -/
inductive Json where
  | null
  | bool (b : Bool)
  | num (n : Int)
  | str (s : String)
  | arr (elems : List Json)
  | obj (fields : List (String × Json))

/- Structural equality on Json values, mirroring the PartialEq of
serde_json Value used by the skip-condition comparison in parse_json. -/
mutual

def Json.beq : Json → Json → Bool
  | .null, .null => true
  | .bool a, .bool b => a == b
  | .num a, .num b => a == b
  | .str a, .str b => a == b
  | .arr a, .arr b => Json.beqList a b
  | .obj a, .obj b => Json.beqObj a b
  | _, _ => false

def Json.beqList : List Json → List Json → Bool
  | [], [] => true
  | x :: xs, y :: ys => Json.beq x y && Json.beqList xs ys
  | _, _ => false

def Json.beqObj : List (String × Json) → List (String × Json) → Bool
  | [], [] => true
  | (k1, v1) :: xs, (k2, v2) :: ys => k1 == k2 && Json.beq v1 v2 && Json.beqObj xs ys
  | _, _ => false

end

/-- One step of dot-path navigation: a key into an object (map lookup) or a
numeric index into an array, as in the json_dotpath crate. -/
def Json.step (j : Json) (seg : String) : Option Json :=
  match j with
  | .obj fields =>
    match fields.find? (fun kv => kv.fst == seg) with
    | some kv => some kv.snd
    | none => none
  | .arr elems =>
    match seg.toNat? with
    | some i => elems.get? i
    | none => none
  | _ => none

/-- Navigation of a whole dot-path, split on dots.  Mirrors dot_get from
the json_dotpath crate as used with a Value target type: a missing
intermediate or leaf yields None (the Ok(None) case in Rust). -/
def Json.dotPath (j : Json) (segs : List String) : Option Json :=
  match segs with
  | [] => some j
  | seg :: rest =>
    match j.step seg with
    | some v => v.dotPath rest
    | none => none

/-- Splitting a character list on a separator character (the list-level
body of the dot-path split). -/
def splitOnChar (c : Char) : List Char → List (List Char)
  | [] => [[]]
  | x :: xs =>
    let rest := splitOnChar c xs
    if x == c then [] :: rest
    else
      match rest with
      | [] => [[x]]
      | r :: rs => (x :: r) :: rs

/-- The dot-path split: the path string cut at every dot character. -/
def splitDots (s : String) : List String :=
  (splitOnChar (Char.ofNat 46) s.data).map fun l => String.mk l

/-- dot_get on a Json value for a dot-separated path string. -/
def Json.dotGet (j : Json) (path : String) : Option Json :=
  j.dotPath (splitDots path)

/-- Whether the needle list is a prefix of the haystack list. -/
def prefixMatches : List Char → List Char → Bool
  | [], _ => true
  | _ :: _, [] => false
  | a :: as, b :: bs => a == b && prefixMatches as bs

/-- Whether the needle occurs as a contiguous sublist of the haystack. -/
def containsSubAux (hay sub : List Char) : Bool :=
  prefixMatches sub hay ||
    match hay with
    | [] => false
    | _ :: t => containsSubAux t sub

/-- Substring containment test, used for the contains calls on strings in
the parsers (the Rust str contains method with a str pattern). -/
def strContainsSub (s sub : String) : Bool :=
  containsSubAux s.data sub.data

/-- Decimal parsing of a u64 the way the Rust str parse does for channel
identifiers: at least one character, digits only (the optional leading
plus sign accepted by Rust never occurs in channel ids and is not
modelled). -/
def digitsToNat : Option Nat → List Char → Option Nat
  | acc, [] => acc
  | acc, c :: cs =>
    if c.toNat ≥ 48 && c.toNat ≤ 57 then
      digitsToNat (some ((acc.getD 0) * 10 + (c.toNat - 48))) cs
    else none

/-- The string-to-number front end for get_channel_id. -/
def strToNat? (s : String) : Option Nat :=
  digitsToNat none s.data

instance {ε α : Type} [DecidableEq ε] [DecidableEq α] : DecidableEq (Except ε α) := fun x y =>
  match x, y with
  | .ok a, .ok b =>
    if h : a = b then .isTrue (by rw [h]) else .isFalse (by simp [h])
  | .error a, .error b =>
    if h : a = b then .isTrue (by rw [h]) else .isFalse (by simp [h])
  | .ok a, .error b => .isFalse (by simp)
  | .error a, .ok b => .isFalse (by simp)

/-- Mirror of structs.rs TargetKeys: dot-paths for the JSON parser.  The
skip map (a HashMap in Rust) is embedded as an association list; only
whether some entry matches ever matters, so iteration order is
irrelevant. -/
structure TargetKeys where
  chapters : String
  number : List String
  title : List String
  date : String
  date_format : Option JsonDateTimeFormat
  url : String
  skip : List (String × Json)

/-- Mirror of structs.rs TargetTags: selector and attribute names for the
HTML parser. -/
structure TargetTags where
  chapters_tag : String
  number_tag : Option String
  number_attribute : Option String
  title_tag : Option String
  title_attribute : Option String
  date_tag : Option String
  date_attribute : Option String
  date_format : Option String
  url_tag : Option String
  url_attribute : Option String

/-- Mirror of structs.rs Target.  The request_headers field only matters
to the HTTP fetch (an external collaborator) and is omitted; delay is the
optional announcement delay in days (u8 in Rust). -/
structure Target where
  name : String
  source : String
  ascending_source : Bool
  mode : ParseMode
  base_url : Option String
  delay : Option Nat
  keys : Option TargetKeys
  tags : Option TargetTags

/-- The delay actually applied: target.delay.unwrap_or(0) as an Int. -/
def delayDays (t : Target) : Int :=
  (t.delay.getD 0 : Nat)

/-- Abstract interface to the chrono string parsers used by the parsers.
Each function returns the parsed moment in Int nanoseconds, or an error.
The date-only parsers return midnight of the parsed day, matching the
and_hms_opt(0,0,0) completion applied in the Rust code. -/
structure ChronoEnv where
  rfc2822 : String → Except String Int
  rfc3339 : String → Except String Int
  ndtParseFromStr : String → String → Except String Int
  ndParseFromStr : String → String → Except String Int
  ndtFromStr : String → Except String Int
  ndFromStr : String → Except String Int

/-- Abstract interface to the url crate: parseUrl returns the normalized
rendering of an absolute URL, or none when parsing fails. -/
structure UrlEnv where
  parseUrl : String → Option String

/-- Mirror of parsers/utils.rs make_link: absolute URLs pass through the
url crate unchanged in meaning; otherwise the base URL is prepended and
the result parsed, with the final unwrap panic embedded as an error. -/
def make_link (urls : UrlEnv) (base_url link : String) : Except String String :=
  match urls.parseUrl link with
  | some u => .ok u
  | none =>
    match urls.parseUrl (base_url ++ link) with
    | some u => .ok u
    | none => .error ("panic: Url parse unwrap on merged link")

/-- Resolution of a raw url against the optional base URL, as written in
each parser: match on target.base_url around make_link. -/
def resolveLink (urls : UrlEnv) (base : Option String) (link : String) : Except String String :=
  match base with
  | some b => make_link urls b link
  | none => .ok link

/-- Mirror of json.rs parse_date_unix_seconds (nanoseconds result). -/
def parse_date_unix_seconds (t : Int) : Int :=
  t * 1000000000

/-- Mirror of json.rs parse_date_unix_millis. -/
def parse_date_unix_millis (t : Int) : Int :=
  t * 1000000

/-- Mirror of json.rs parse_date_unix_nanos. -/
def parse_date_unix_nanos (t : Int) : Int :=
  t

/-- Mirror of json.rs parse_date_custom_format: a format containing the
hour specifier is parsed as a NaiveDateTime, otherwise as a NaiveDate at
midnight (both via the chrono environment). -/
def parse_date_custom_format (chrono : ChronoEnv) (date_string date_format : String) :
    Except String Int :=
  if strContainsSub date_format ("%H") then chrono.ndtParseFromStr date_string date_format
  else chrono.ndParseFromStr date_string date_format

/-- Mirror of json.rs convert_value_into_string: strings pass through,
numbers render in decimal, anything else is an error. -/
def convert_value_into_string (value : Json) : Except String String :=
  match value with
  | .str s => .ok s
  | .num n => .ok (toString n)
  | _ => .error ("Value isn't a valid type")

/-- The skip-condition loop at the top of the parse_json element loop: an
element is skipped when some configured dot-path exists on it and its
value equals the configured skip value. -/
def skipElement (skip : List (String × Json)) (cj : Json) : Bool :=
  skip.any fun cond =>
    match cj.dotGet cond.fst with
    | some v => v.beq cond.snd
    | none => false

/-- The mixer closure of parse_json: evaluate every dot-path of the list,
convert each value to a string, and join the pieces with single spaces. -/
def mixer (cj : Json) (keyList : List String) : Except String String :=
  match keyList with
  | [] => .ok (String.intercalate (" ") [])
  | _ =>
    match mixerParts cj keyList with
    | .ok parts => .ok (String.intercalate (" ") parts)
    | .error e => .error e
where
  /-- The loop body: dot_get each key (a missing value is the anyhow error
  Could not get value) and convert it to a string. -/
  mixerParts (cj : Json) : List String → Except String (List String)
    | [] => .ok []
    | k :: ks =>
      match cj.dotGet k with
      | none => .error ("Could not get value")
      | some v =>
        match convert_value_into_string v with
        | .error e => .error e
        | .ok s =>
          match mixerParts cj ks with
          | .error e => .error e
          | .ok rest => .ok (s :: rest)

/-- The date branch of the parse_json element loop: dispatch on the
configured JsonDateTimeFormat (default RFC 3339), with the as_i64 and
as_str unwrap panics embedded as errors. -/
def parseJsonDate (chrono : ChronoEnv) (fmt : Option JsonDateTimeFormat) (v : Json) :
    Except String Int :=
  match fmt with
  | some .unixSec =>
    match v with
    | .num n => .ok (parse_date_unix_seconds n)
    | _ => .error ("panic: as_i64 unwrap on date value")
  | some .unixMilli =>
    match v with
    | .num n => .ok (parse_date_unix_millis n)
    | _ => .error ("panic: as_i64 unwrap on date value")
  | some .unixNano =>
    match v with
    | .num n => .ok (parse_date_unix_nanos n)
    | _ => .error ("panic: as_i64 unwrap on date value")
  | some .rfc2822 =>
    match v with
    | .str s => chrono.rfc2822 s
    | _ => .error ("panic: as_str unwrap on date value")
  | some .rfc3339 =>
    match v with
    | .str s => chrono.rfc3339 s
    | _ => .error ("panic: as_str unwrap on date value")
  | some (.stringFormat f) =>
    match v with
    | .str s => parse_date_custom_format chrono s f
    | _ => .error ("panic: as_str unwrap on date value")
  | none =>
    match v with
    | .str s => chrono.rfc3339 s
    | _ => .error ("panic: as_str unwrap on date value")

/-- One iteration of the parse_json element loop after the skip check:
number and title via the mixer, the date via its dot-path and format, the
url via its dot-path plus string conversion and base-url resolution, and
announced_at set to date plus the configured delay in days. -/
def parseJsonElement (chrono : ChronoEnv) (urls : UrlEnv) (t : Target) (keys : TargetKeys)
    (cj : Json) : Except String Chapter :=
  match mixer cj keys.number with
  | .error e => .error e
  | .ok number =>
    match mixer cj keys.title with
    | .error e => .error e
    | .ok title =>
      match cj.dotGet keys.date with
      | none => .error ("panic: unwrap on missing date value")
      | some dateVal =>
        match parseJsonDate chrono keys.date_format dateVal with
        | .error e => .error e
        | .ok date =>
          match cj.dotGet keys.url with
          | none => .error ("panic: unwrap on missing url value")
          | some urlVal =>
            match convert_value_into_string urlVal with
            | .error e => .error e
            | .ok url =>
              match resolveLink urls t.base_url url with
              | .error e => .error e
              | .ok finalUrl =>
                .ok
                  { manga := t.name
                    number := number
                    title := title
                    date := date
                    url := finalUrl
                    logged_at := none
                    announced_at := date + nsPerDay * delayDays t }

/-- The labelled outer loop of parse_json over the chapters array, in
document order: skip-matched elements are dropped, and any per-element
failure aborts the whole parse (it is propagated, not caught). -/
def parseJsonElems (chrono : ChronoEnv) (urls : UrlEnv) (t : Target) (keys : TargetKeys) :
    List Json → Except String (List Chapter)
  | [] => .ok []
  | cj :: rest =>
    if skipElement keys.skip cj then parseJsonElems chrono urls t keys rest
    else
      match parseJsonElement chrono urls t keys cj with
      | .error e => .error e
      | .ok ch =>
        match parseJsonElems chrono urls t keys rest with
        | .error e => .error e
        | .ok chs => .ok (ch :: chs)

/-- Reversal applied at the tail of each parser: a non-ascending source is
reversed so callers receive oldest-first order. -/
def applyAscending (asc : Bool) (l : List α) : List α :=
  if asc then l else l.reverse

/-- Everything of json.rs parse_json before the final ascending_source
correction: unwrap the target keys, locate the chapters array at the
configured dot-path (unwrap panics embedded as errors), then run the
element loop. -/
def collectJson (chrono : ChronoEnv) (urls : UrlEnv) (t : Target) (j : Json) :
    Except String (List Chapter) :=
  match t.keys with
  | none => .error ("panic: unwrap on missing target keys")
  | some keys =>
    match j.dotGet keys.chapters with
    | none => .error ("panic: unwrap on missing chapters value")
    | some chaptersJson =>
      match chaptersJson with
      | .arr elems => parseJsonElems chrono urls t keys elems
      | _ => .error ("panic: as_array unwrap on chapters value")

/-- Mirror of json.rs parse_json.  The serde_json deserialization of the
raw body happens at the library boundary, so the embedding takes the
already-parsed Json value. -/
def parse_json (chrono : ChronoEnv) (urls : UrlEnv) (t : Target) (j : Json) :
    Except String (List Chapter) :=
  Except.map (applyAscending t.ascending_source) (collectJson chrono urls t j)

/-- Abstract interface to the scraper crate over an arbitrary element
type: selector parsing success, selection of all matches of a selector in
a parsed document, first match of a selector under an element, attribute
lookup, and concatenated text content. -/
structure ScraperEnv (Elem : Type) where
  selectorOk : String → Bool
  docSelect : String → String → List Elem
  selectFirst : Elem → String → Option Elem
  attr : Elem → String → Option String
  text : Elem → String

/-- Mirror of html.rs make_selector. -/
def make_selector (env : ScraperEnv Elem) (s : String) : Except String String :=
  if env.selectorOk s then .ok s
  else .error ("Failed creating selector: " ++ s)

/-- Mirror of html.rs get_sub_element: with a tag configured, the first
match of that selector under the element (an error when absent); without
one, the chapter element itself. -/
def get_sub_element (env : ScraperEnv Elem) (e : Elem) (tag : Option String) :
    Except String Elem :=
  match tag with
  | some t =>
    match make_selector env t with
    | .error err => .error err
    | .ok sel =>
      match env.selectFirst e sel with
      | some sub => .ok sub
      | none => .error ("No element found using tag " ++ t)
  | none => .ok e

/-- Mirror of html.rs get_value: resolve the sub-element, then read the
named attribute (an error when absent) or the text content. -/
def get_value (env : ScraperEnv Elem) (e : Elem) (tag attrName : Option String) :
    Except String String :=
  match get_sub_element env e tag with
  | .error err => .error err
  | .ok sub =>
    match attrName with
    | some a =>
      match env.attr sub a with
      | some s => .ok s
      | none => .error ("No attribute " ++ a ++ " found in tag")
    | none => .ok (env.text sub)

/-- Mirror of html.rs parse_string_to_datetime: a colon in the string
selects datetime parsing, otherwise date-only parsing completed to
midnight; each side uses the configured strftime pattern when given. -/
def parse_string_to_datetime (chrono : ChronoEnv) (date_string : String)
    (format : Option String) : Except String Int :=
  if date_string.data.any (fun c => c == Char.ofNat 58) then
    match format with
    | some f => chrono.ndtParseFromStr date_string f
    | none => chrono.ndtFromStr date_string
  else
    match format with
    | some f => chrono.ndParseFromStr date_string f
    | none => chrono.ndFromStr date_string

/-- The assemble_chapter closure of parse_html: number, title, date (the
current time when no date selector nor attribute is configured), url, and
announced_at set to date plus the configured delay in days. -/
def assembleChapter (env : ScraperEnv Elem) (chrono : ChronoEnv) (urls : UrlEnv) (now : Int)
    (t : Target) (tags : TargetTags) (e : Elem) : Except String Chapter :=
  match get_value env e tags.number_tag tags.number_attribute with
  | .error err => .error err
  | .ok number =>
    match get_value env e tags.title_tag tags.title_attribute with
    | .error err => .error err
    | .ok title =>
      match
        (if tags.date_tag.isNone && tags.date_attribute.isNone then .ok now
         else
           match get_value env e tags.date_tag tags.date_attribute with
           | .error err => .error err
           | .ok s => parse_string_to_datetime chrono s tags.date_format :
            Except String Int)
      with
      | .error err => .error err
      | .ok date =>
        match get_value env e tags.url_tag tags.url_attribute with
        | .error err => .error err
        | .ok url =>
          match resolveLink urls t.base_url url with
          | .error err => .error err
          | .ok finalUrl =>
            .ok
              { manga := t.name
                number := number
                title := title
                date := date
                url := finalUrl
                logged_at := none
                announced_at := date + nsPerDay * delayDays t }

/-- Everything of html.rs parse_html before the final ascending_source
correction: unwrap the target tags, build the chapters selector, then
keep the chapters of exactly those selected elements whose assembly
succeeds (a failed element is skipped with continue). -/
def collectHtml (env : ScraperEnv Elem) (chrono : ChronoEnv) (urls : UrlEnv) (now : Int)
    (t : Target) (source : String) : Except String (List Chapter) :=
  match t.tags with
  | none => .error ("panic: unwrap on missing target tags")
  | some tags =>
    match make_selector env tags.chapters_tag with
    | .error err => .error err
    | .ok sel =>
      .ok ((env.docSelect source sel).filterMap fun e =>
        (assembleChapter env chrono urls now t tags e).toOption)

/-- Mirror of html.rs parse_html. -/
def parse_html (env : ScraperEnv Elem) (chrono : ChronoEnv) (urls : UrlEnv) (now : Int)
    (t : Target) (source : String) : Except String (List Chapter) :=
  Except.map (applyAscending t.ascending_source) (collectHtml env chrono urls now t source)

/-- One syndication feed entry as read by parse_rss through feed-rs. -/
structure FeedEntry where
  id : String
  title : Option String
  published : Option Int
  links : List String

/-- A parsed feed. -/
structure Feed where
  entries : List FeedEntry

/-- Abstract interface to the feed-rs parser: none embeds the Err result
that the unwrap in parse_rss turns into a panic. -/
structure FeedEnv where
  parseFeed : String → Option Feed

/-- The entry loop of rss.rs parse_rss: the entry id as number, the
unwrapped title, published falling back to the current time, and the
href of the first link resolved against the base URL.  The chapter
literal in rss.rs carries no announced_at field and never reads the
configured delay, so the output element type is RssChapter. -/
def parseRssEntries (urls : UrlEnv) (now : Int) (t : Target) :
    List FeedEntry → Except String (List RssChapter)
  | [] => .ok []
  | entry :: rest =>
    match entry.links.head? with
    | none => .error ("panic: unwrap on first link")
    | some link =>
      match entry.title with
      | none => .error ("panic: unwrap on entry title")
      | some title =>
        match resolveLink urls t.base_url link with
        | .error e => .error e
        | .ok finalUrl =>
          match parseRssEntries urls now t rest with
          | .error e => .error e
          | .ok chs =>
            .ok
              ({ manga := t.name
                 number := entry.id
                 title := title
                 date := entry.published.getD now
                 url := finalUrl
                 logged_at := none } :: chs)

/-- Everything of rss.rs parse_rss before the final ascending_source
correction: parse the feed (the unwrap panic embedded as an error) and
run the entry loop. -/
def collectRss (feeds : FeedEnv) (urls : UrlEnv) (now : Int) (t : Target) (source : String) :
    Except String (List RssChapter) :=
  match feeds.parseFeed source with
  | none => .error ("panic: unwrap on feed parse")
  | some feed => parseRssEntries urls now t feed.entries

/-- Mirror of rss.rs parse_rss.  The Rust function returns a plain Vec and
can only fail by panicking; those panics are the error cases here. -/
def parse_rss (feeds : FeedEnv) (urls : UrlEnv) (now : Int) (t : Target) (source : String) :
    Except String (List RssChapter) :=
  Except.map (applyAscending t.ascending_source) (collectRss feeds urls now t source)

/-- One row of the Chapters table created by database/sqlite.rs: all
columns are NOT NULL. -/
structure ChapterRow where
  manga : String
  title : String
  number : String
  url : String
  date : Int
  loggedAt : Int
  announcedAt : Int
deriving Repr, DecidableEq

/-- One row of the Servers table: channelId and lastAnnouncedAt are
nullable, isAnnouncing defaults to 0. -/
structure ServerRow where
  guildId : String
  channelId : Option String
  lastAnnouncedAt : Option Int
  isAnnouncing : Bool
deriving Repr, DecidableEq

/-- The SQLite store as a value: the two tables in row order.  The
connection mutex serializes every statement, so each database method is a
function of this state.  Statement-level rusqlite failures (I O errors)
are outside the model; the error results below are exactly the bail paths
of sqlite.rs. -/
structure Db where
  chapters : List ChapterRow
  servers : List ServerRow
deriving Repr, DecidableEq

/-- The WHERE guildId = ? row lookup used by the Servers queries;
query_row yields the first matching row. -/
def serverFor (db : Db) (guild_id : String) : Option ServerRow :=
  db.servers.find? fun r => r.guildId == guild_id

/-- An UPDATE ... WHERE guildId = ? statement applied to the servers
table: every matching row is rewritten by f. -/
def updateServers (guild_id : String) (f : ServerRow → ServerRow) (l : List ServerRow) :
    List ServerRow :=
  l.map fun r => if r.guildId == guild_id then f r else r

/-- The number of rows an UPDATE ... WHERE guildId = ? statement touches
(the execute return value checked against 1 by the setters). -/
def matchingServerCount (guild_id : String) (db : Db) : Nat :=
  db.servers.countP fun r => r.guildId == guild_id

/-- The ON-insert image of a Chapter, as written by save_chapters:
loggedAt is the insertion-time clock reading. -/
def rowOfChapter (now : Int) (c : Chapter) : ChapterRow :=
  { manga := c.manga
    title := c.title
    number := c.number
    url := c.url
    date := c.date
    loggedAt := now
    announcedAt := c.announced_at }

/-- The duplicate check of save_chapters: SELECT id FROM Chapters WHERE
manga = ? AND title = ? AND number = ?. -/
def tripleMatches (c : Chapter) (r : ChapterRow) : Bool :=
  r.manga == c.manga && r.title == c.title && r.number == c.number

/-- Mirror of sqlite.rs save_chapters: for each chapter in order, skip it
when a row with the same (manga, title, number) triple exists, otherwise
append a new row.  The Rust method returns Ok(()) on every path short of
a statement failure, so the embedding is total. -/
def save_chapters (now : Int) (chapters : List Chapter) (db : Db) : Db :=
  chapters.foldl
    (fun acc c =>
      if acc.chapters.any (tripleMatches c) then acc
      else { acc with chapters := acc.chapters ++ [rowOfChapter now c] })
    db

/-- Mirror of sqlite.rs get_last_announced_time: the first Servers row for
the guild must exist and its lastAnnouncedAt must be non-null, otherwise
the method bails. -/
def get_last_announced_time (db : Db) (guild_id : String) : Except String Int :=
  match serverFor db guild_id with
  | some r =>
    match r.lastAnnouncedAt with
    | some t => .ok t
    | none => .error ("Feed channel has not been set for this server.")
  | none => .error ("Feed channel has not been set for this server.")

/-- The store image of the UPDATE in set_last_announced_time. -/
def setLastDb (guild_id : String) (t : Int) (db : Db) : Db :=
  { db with
    servers := updateServers guild_id (fun r => { r with lastAnnouncedAt := some t })
      db.servers }

/-- Mirror of sqlite.rs set_last_announced_time: UPDATE lastAnnouncedAt
WHERE guildId = ?, bailing when no row was touched. -/
def set_last_announced_time (guild_id : String) (t : Int) (db : Db) : Except String Db :=
  if matchingServerCount guild_id db = 0 then
    .error ("Feed channel has not been set for this server.")
  else .ok (setLastDb guild_id t db)

/-- Mirror of sqlite.rs get_announcing_server_flag. -/
def get_announcing_server_flag (db : Db) (guild_id : String) : Except String Bool :=
  match serverFor db guild_id with
  | some r => .ok r.isAnnouncing
  | none => .error ("Feed channel has not been set for this server.")

/-- The store image of the UPDATE in set_announcing_server_flag. -/
def setFlagDb (guild_id : String) (announcing : Bool) (db : Db) : Db :=
  { db with
    servers := updateServers guild_id (fun r => { r with isAnnouncing := announcing })
      db.servers }

/-- Mirror of sqlite.rs set_announcing_server_flag: UPDATE isAnnouncing
WHERE guildId = ?, bailing when no row was touched. -/
def set_announcing_server_flag (guild_id : String) (announcing : Bool) (db : Db) :
    Except String Db :=
  if matchingServerCount guild_id db = 0 then
    .error ("Feed channel has not been set for this server.")
  else .ok (setFlagDb guild_id announcing db)

/-- The row-to-Chapter conversion in the get_unnanounced_chapters result
loop. -/
def rowToChapter (r : ChapterRow) : Chapter :=
  { manga := r.manga
    title := r.title
    number := r.number
    url := r.url
    date := r.date
    logged_at := some r.loggedAt
    announced_at := r.announcedAt }

/-- The date comparison of the ORDER BY date ASC clause. -/
def dateLe (a b : ChapterRow) : Prop :=
  a.date ≤ b.date

instance : DecidableRel dateLe := fun a b => inferInstanceAs (Decidable (a.date ≤ b.date))

instance : IsTotal ChapterRow dateLe := ⟨fun a b => Int.le_total a.date b.date⟩

instance : IsTrans ChapterRow dateLe := ⟨fun _ _ _ h1 h2 => le_trans h1 h2⟩

/-- The SELECT of get_unnanounced_chapters: rows with
announcedAt > lastAnnouncedAt and now >= announcedAt, ordered by date
ascending (a stable sort of the table order). -/
def unannouncedRows (last now : Int) (rows : List ChapterRow) : List ChapterRow :=
  (rows.filter fun r => last < r.announcedAt && r.announcedAt ≤ now).insertionSort dateLe

/-- Mirror of sqlite.rs get_unnanounced_chapters (source spelling kept):
the watermark must be readable, then the windowed rows are returned as
Chapters in date order. -/
def get_unnanounced_chapters (now : Int) (guild_id : String) (db : Db) :
    Except String (List Chapter) :=
  match get_last_announced_time db guild_id with
  | .error _ => .error ("Could not get last announced time for the Server.")
  | .ok last => .ok ((unannouncedRows last now db.chapters).map rowToChapter)

/-- Mirror of sqlite.rs get_feed_channel: the first row for the guild must
exist and its channelId must be non-null. -/
def get_feed_channel (db : Db) (guild_id : String) : Except String String :=
  match serverFor db guild_id with
  | some r =>
    match r.channelId with
    | some c => .ok c
    | none => .error ("Feed channel has not been set for this server.")
  | none => .error ("Feed channel has not been set for this server.")

/-- Mirror of sqlite.rs set_feed_channel: when the stored channel already
equals the argument, return with no write; when some channel is set,
UPDATE it; otherwise INSERT a fresh row whose lastAnnouncedAt is the
current time (and isAnnouncing the column default false). -/
def set_feed_channel (now : Int) (guild_id channel_id : String) (db : Db) : Db :=
  match get_feed_channel db guild_id with
  | .ok current =>
    if current == channel_id then db
    else
      { db with
        servers := updateServers guild_id (fun r => { r with channelId := some channel_id })
          db.servers }
  | .error _ =>
    { db with
      servers := db.servers ++
        [{ guildId := guild_id
           channelId := some channel_id
           lastAnnouncedAt := some now
           isAnnouncing := false }] }

/-- Mirror of discord.rs get_channel_id: the channel identifier string
parsed as a u64. -/
def get_channel_id (channel_id : String) : Except String Nat :=
  match strToNat? channel_id with
  | some n => if n < 2 ^ 64 then .ok n else .error ("could not parse channel id")
  | none => .error ("could not parse channel id")

/-- Outcome of one announce_for_server run: the store afterwards, the
Ok or Err result of the function, and the chapter batch handed to
send_chapters when the run reached the send (none otherwise). -/
structure AnnounceOutcome where
  db : Db
  result : Except String Unit
  sentBatch : Option (List Chapter)
deriving Repr

/-- Mirror of announcer.rs announce_for_server.  Every question-mark
return of the Rust function is a branch that stops with the store in its
current state.  The Discord send is an external collaborator; sendOk
tells whether send_chapters returns Ok for this run. -/
def announce_for_server (now : Int) (sendOk : Bool) (server : Server) (db : Db) :
    AnnounceOutcome :=
  match get_announcing_server_flag db server.identifier with
  | .error e => { db := db, result := .error e, sentBatch := none }
  | .ok true => { db := db, result := .ok (), sentBatch := none }
  | .ok false =>
    match set_announcing_server_flag server.identifier true db with
    | .error e => { db := db, result := .error e, sentBatch := none }
    | .ok db1 =>
      match get_unnanounced_chapters now server.identifier db1 with
      | .error e => { db := db1, result := .error e, sentBatch := none }
      | .ok chapters =>
        if chapters.length > 0 then
          match get_channel_id server.feed_channel_identifier with
          | .error e => { db := db1, result := .error e, sentBatch := none }
          | .ok _channel =>
            if sendOk then
              match set_last_announced_time server.identifier now db1 with
              | .error e => { db := db1, result := .error e, sentBatch := some chapters }
              | .ok db2 =>
                match set_announcing_server_flag server.identifier false db2 with
                | .error e => { db := db2, result := .error e, sentBatch := some chapters }
                | .ok db3 => { db := db3, result := .ok (), sentBatch := some chapters }
            else
              { db := db1, result := .error ("send_chapters failed"), sentBatch := some chapters }
        else
          match set_announcing_server_flag server.identifier false db1 with
          | .error e => { db := db1, result := .error e, sentBatch := none }
          | .ok db2 => { db := db2, result := .ok (), sentBatch := none }

/-- Mirror of the Worker enum of main.rs; its derived PartialEq compares
SoloAnnouncer payloads with the identifier-only Server equality. -/
inductive Worker where
  | gofer
  | announcer
  | soloAnnouncer (server : Server)
  | discordBot
deriving Repr, DecidableEq

/-- The PartialEq used on Worker values by the tracker. -/
def workerEq (a b : Worker) : Bool :=
  match a, b with
  | .gofer, .gofer => true
  | .announcer, .announcer => true
  | .soloAnnouncer s1, .soloAnnouncer s2 => serverEq s1 s2
  | .discordBot, .discordBot => true
  | _, _ => false

/-- Mirror of the CoreMessage enum of main.rs; the TransferDiscordHttp
payload (an Arc of the HTTP client) carries no modelled data. -/
inductive CoreMessage where
  | startGofer (triggers_announcer : Bool)
  | startAnnouncer
  | startSoloAnnouncer (server : Server)
  | startDiscordBot
  | transferDiscordHttp
  | quit
deriving Repr, DecidableEq

/-- Mirror of main.rs get_tracker_index: first index whose tracked worker
equals the sought one (the enumerate loop written as recursion). -/
def get_tracker_index (tracker : List Worker) (find : Worker) : Option Nat :=
  match tracker with
  | [] => none
  | worker :: rest =>
    if workerEq worker find then some 0
    else (get_tracker_index rest find).map fun i => i + 1

/-- Mirror of main.rs add_tracker (a push; its Result is always Ok). -/
def add_tracker (tracker : List Worker) (worker : Worker) : List Worker :=
  tracker ++ [worker]

/-- Mirror of main.rs remove_tracker: drop the found index, or leave the
tracker alone when the worker is not tracked. -/
def remove_tracker (tracker : List Worker) (worker : Worker) : List Worker :=
  match get_tracker_index tracker worker with
  | some i => tracker.eraseIdx i
  | none => tracker

/-- Result of one start_x call of main.rs: the Ok or bail result, the
tracker afterwards (the Rust functions take it by mutable reference and
leave it untouched on the bail paths), and the workers whose tasks were
spawned into the join set. -/
structure StartOutcome where
  res : Except String Unit
  tracker : List Worker
  spawned : List Worker
deriving Repr

/-- Mirror of main.rs start_gofer: bail when a Gofer is tracked, else
track and spawn one. -/
def start_gofer (tracker : List Worker) : StartOutcome :=
  if (get_tracker_index tracker .gofer).isSome then
    { res := .error ("Gofer is already running."), tracker := tracker, spawned := [] }
  else
    { res := .ok ()
      tracker := add_tracker tracker .gofer
      spawned := [Worker.gofer] }

/-- Mirror of main.rs start_discord_bot. -/
def start_discord_bot (tracker : List Worker) : StartOutcome :=
  if (get_tracker_index tracker .discordBot).isSome then
    { res := .error ("Discord Bot is already running."), tracker := tracker, spawned := [] }
  else
    { res := .ok ()
      tracker := add_tracker tracker .discordBot
      spawned := [Worker.discordBot] }

/-- Mirror of main.rs start_announcer: bail when the Discord API handle is
absent, bail when the worker (Announcer, or SoloAnnouncer keyed by the
destination) is tracked, else spawn and track. -/
def start_announcer (tracker : List Worker) (discord_http : Bool) (server : Option Server) :
    StartOutcome :=
  let worker := match server with
    | some s => Worker.soloAnnouncer s
    | none => Worker.announcer
  if !discord_http then
    { res := .error ("Discord API has not been received by core control.")
      tracker := tracker
      spawned := [] }
  else if (get_tracker_index tracker worker).isSome then
    { res := .error ("Announcer is already running."), tracker := tracker, spawned := [] }
  else
    { res := .ok (), tracker := add_tracker tracker worker, spawned := [worker] }

/-- The mutable state of the continuous-mode dispatcher loop in main.rs:
the tracker, whether the Discord HTTP handle has been received, and the
announce-on-gofer-finish flag. -/
structure LoopState where
  tracker : List Worker
  discordHttp : Bool
  triggerAnnouncerOnGoferFinish : Bool
deriving Repr, DecidableEq

/-- What the loop does next: keep looping with a new state, or break out
(the Quit arm). -/
inductive LoopStep where
  | cont (s : LoopState)
  | quit (s : LoopState)
deriving Repr, DecidableEq

/-- Mirror of the message match of the continuous-mode loop in main.rs.
Each start_x call there carries a question mark, so a bail result
propagates as the error value out of main, terminating the process; that
propagation is the error case of this function. -/
def handleMessage (s : LoopState) : CoreMessage → Except String LoopStep
  | .startGofer triggers_announcer =>
    let o := start_gofer s.tracker
    match o.res with
    | .error e => .error e
    | .ok _ =>
      .ok (.cont { s with
        tracker := o.tracker
        triggerAnnouncerOnGoferFinish := triggers_announcer })
  | .startAnnouncer =>
    let o := start_announcer s.tracker s.discordHttp none
    match o.res with
    | .error e => .error e
    | .ok _ => .ok (.cont { s with tracker := o.tracker })
  | .startSoloAnnouncer server =>
    let o := start_announcer s.tracker s.discordHttp (some server)
    match o.res with
    | .error e => .error e
    | .ok _ => .ok (.cont { s with tracker := o.tracker })
  | .startDiscordBot =>
    let o := start_discord_bot s.tracker
    match o.res with
    | .error e => .error e
    | .ok _ => .ok (.cont { s with tracker := o.tracker })
  | .transferDiscordHttp => .ok (.cont { s with discordHttp := true })
  | .quit => .ok (.quit s)

/-- Mirror of the worker-completion branch of the continuous-mode loop:
untrack the finished worker (a failed removal is only logged), chain a
StartAnnouncer when a Gofer finished with the flag set, and on a Discord
Bot exit drop the handle and emit a reconnect trigger. -/
def handleCompletion (s : LoopState) (worker : Worker) : LoopState × List CoreMessage :=
  let tracker1 := remove_tracker s.tracker worker
  let chase :=
    if workerEq worker .gofer && s.triggerAnnouncerOnGoferFinish then
      (false, [CoreMessage.startAnnouncer])
    else (s.triggerAnnouncerOnGoferFinish, [])
  let bot :=
    if workerEq worker .discordBot then (false, [CoreMessage.startDiscordBot])
    else (s.discordHttp, [])
  ({ tracker := tracker1
     discordHttp := bot.fst
     triggerAnnouncerOnGoferFinish := chase.fst },
   chase.snd ++ bot.snd)

/-- Tracked fetch-all workers: entries of the tracker equal (under the
Worker PartialEq) to Worker.gofer. -/
def goferCount (tracker : List Worker) : Nat :=
  tracker.countP fun w => workerEq w .gofer

/-- The store for the C1 run: one server with a clear announcing flag and
one chapter inside the announcement window. -/
def c1Db : Db :=
  { chapters := [{ manga := "M", title := "T", number := "1", url := "u",
                   date := 1, loggedAt := 0, announcedAt := 5 }]
    servers := [{ guildId := "g1", channelId := some ("123"),
                  lastAnnouncedAt := some 0, isAnnouncing := false }] }



/-- The number of stored rows carrying the (manga, title, number) triple
of the given chapter. -/
def tripleCount (db : Db) (c : Chapter) : Nat :=
  (db.chapters.filter (tripleMatches c)).length

/-- A chrono environment whose string parsers always fail; the concrete
runs below only use numeric date formats, which never consult it. -/
def dummyChrono : ChronoEnv :=
  { rfc2822 := fun _ => .error ("chrono")
    rfc3339 := fun _ => .error ("chrono")
    ndtParseFromStr := fun _ _ => .error ("chrono")
    ndParseFromStr := fun _ _ => .error ("chrono")
    ndtFromStr := fun _ => .error ("chrono")
    ndFromStr := fun _ => .error ("chrono") }

/-- A url environment that parses nothing; the concrete runs below use
targets without a base URL, which never consult it. -/
def dummyUrls : UrlEnv :=
  { parseUrl := fun _ => none }

/-- JSON keys for the concrete parse_json runs: flat dot-paths and a
Unix-seconds date. -/
def exKeys : TargetKeys :=
  { chapters := ("c")
    number := [("n")]
    title := [("t")]
    date := ("d")
    date_format := some .unixSec
    url := ("u")
    skip := [] }

/-- A JSON-mode target without base URL or delay. -/
def exJsonTarget : Target :=
  { name := ("Manga")
    source := ("src")
    ascending_source := true
    mode := .json
    base_url := none
    delay := none
    keys := some exKeys
    tags := none }

/-- The same JSON-mode target with a two-day announcement delay. -/
def exJsonTargetDelay : Target :=
  { exJsonTarget with delay := some 2 }

/-- A well-formed chapter element. -/
def exElemGood : Json :=
  .obj [(("n"), .str ("1")), (("t"), .str ("T1")), (("d"), .num 5), (("u"), .str ("x"))]

/-- A chapter element missing the configured title dot-path. -/
def exElemBad : Json :=
  .obj [(("n"), .str ("2")), (("d"), .num 6), (("u"), .str ("y"))]

/-- A document whose chapters array holds the good element then the bad
one. -/
def exDocBoth : Json :=
  .obj [(("c"), .arr [exElemGood, exElemBad])]

/-- A document holding only the good element. -/
def exDocGood : Json :=
  .obj [(("c"), .arr [exElemGood])]

/-- Tags for the concrete parse_html runs: every field read from an
attribute named a, except the date which falls back to the current
time. -/
def exTags : TargetTags :=
  { chapters_tag := ("li")
    number_tag := none
    number_attribute := some ("a")
    title_tag := none
    title_attribute := some ("a")
    date_tag := none
    date_attribute := none
    date_format := none
    url_tag := none
    url_attribute := some ("a") }

/-- An HTML-mode target with a one-day delay. -/
def exHtmlTarget : Target :=
  { name := ("Manga")
    source := ("src")
    ascending_source := true
    mode := .html
    base_url := none
    delay := some 1
    keys := none
    tags := some exTags }

/-- A scraper environment over Nat elements: the document always selects
elements 0 and 1, element 0 carries the attribute a and element 1 does
not (so its assembly fails). -/
def exScraper : ScraperEnv Nat :=
  { selectorOk := fun _ => true
    docSelect := fun _ _ => [0, 1]
    selectFirst := fun _ _ => none
    attr := fun e _ => if e == 0 then some ("v") else none
    text := fun _ => ("txt") }

/-- The store for the C4 witness run: three chapters, two inside the
window, and one idle server. -/
def c4Db : Db :=
  { chapters :=
      [{ manga := ("M"), title := ("A"), number := ("1"), url := ("u"),
         date := 9, loggedAt := 0, announcedAt := 3 },
       { manga := ("M"), title := ("B"), number := ("2"), url := ("u"),
         date := 2, loggedAt := 0, announcedAt := 5 },
       { manga := ("M"), title := ("C"), number := ("3"), url := ("u"),
         date := 4, loggedAt := 0, announcedAt := 20 }]
    servers := [{ guildId := ("g2"), channelId := some ("77"),
                  lastAnnouncedAt := some 0, isAnnouncing := false }] }

/-- The chapter used by the C5 witness. -/
def c5Chapter : Chapter :=
  { manga := ("M"), number := ("7"), title := ("T"), date := 3, url := ("u"),
    logged_at := none, announced_at := 4 }

/-- The chapter returned in the C10 witness query (announced_at is after
the configuration-time watermark of 5). -/
def c10Chapter : Chapter :=
  { manga := ("M"), number := ("1"), title := ("T"), date := 2, url := ("u"),
    logged_at := some 0, announced_at := 7 }

/-- The store for the C10 witness: one chapter row and the server row
that set_feed_channel would have created at time 5. -/
def c10Db : Db :=
  { chapters := [{ manga := ("M"), title := ("T"), number := ("1"), url := ("u"),
                   date := 2, loggedAt := 0, announcedAt := 7 }]
    servers := [{ guildId := ("g"), channelId := some ("c"),
                  lastAnnouncedAt := some 5, isAnnouncing := false }] }


/-- The chapter produced by the C8 JSON witness run (date 5 Unix seconds,
delay two days). -/
def c8JsonChapter : Chapter :=
  { manga := ("Manga"), number := ("1"), title := ("T1"), date := 5000000000,
    url := ("x"), logged_at := none, announced_at := 172805000000000 }

/-- The chapter produced by the C8 HTML witness run (date is the current
time 100, delay one day). -/
def c8HtmlChapter : Chapter :=
  { manga := ("Manga"), number := ("v"), title := ("v"), date := 100,
    url := ("v"), logged_at := none, announced_at := 86400000000100 }

lemma delayDays_congr (t1 t2 : Target) (hd : t1.delay = t2.delay) :
    delayDays t1 = delayDays t2 := by
  unfold delayDays
  rw [hd]

lemma parseRssEntries_congr (urls : UrlEnv) (now : Int) (t1 t2 : Target)
    (hn : t1.name = t2.name) (hb : t1.base_url = t2.base_url) (l : List FeedEntry) :
    parseRssEntries urls now t1 l = parseRssEntries urls now t2 l := by
  induction l with
  | nil => rfl
  | cons e rest ih =>
    unfold parseRssEntries
    rw [hn, hb, ih]

lemma collectRss_congr (feeds : FeedEnv) (urls : UrlEnv) (now : Int) (t1 t2 : Target)
    (src : String) (hn : t1.name = t2.name) (hb : t1.base_url = t2.base_url) :
    collectRss feeds urls now t1 src = collectRss feeds urls now t2 src := by
  unfold collectRss
  cases feeds.parseFeed src with
  | none => rfl
  | some feed => exact parseRssEntries_congr urls now t1 t2 hn hb feed.entries

lemma parse_rss_congr (feeds : FeedEnv) (urls : UrlEnv) (now : Int) (t1 t2 : Target)
    (src : String) (hn : t1.name = t2.name) (hb : t1.base_url = t2.base_url)
    (ha : t1.ascending_source = t2.ascending_source) :
    parse_rss feeds urls now t1 src = parse_rss feeds urls now t2 src := by
  unfold parse_rss
  rw [ha, collectRss_congr feeds urls now t1 t2 src hn hb]

lemma parseJsonElement_congr (chrono : ChronoEnv) (urls : UrlEnv) (t1 t2 : Target)
    (keys : TargetKeys) (cj : Json) (hn : t1.name = t2.name)
    (hb : t1.base_url = t2.base_url) (hd : t1.delay = t2.delay) :
    parseJsonElement chrono urls t1 keys cj = parseJsonElement chrono urls t2 keys cj := by
  unfold parseJsonElement
  rw [hn, hb, delayDays_congr t1 t2 hd]

lemma parseJsonElems_congr (chrono : ChronoEnv) (urls : UrlEnv) (t1 t2 : Target)
    (keys : TargetKeys) (l : List Json) (hn : t1.name = t2.name)
    (hb : t1.base_url = t2.base_url) (hd : t1.delay = t2.delay) :
    parseJsonElems chrono urls t1 keys l = parseJsonElems chrono urls t2 keys l := by
  induction l with
  | nil => rfl
  | cons cj rest ih =>
    unfold parseJsonElems
    rw [parseJsonElement_congr chrono urls t1 t2 keys cj hn hb hd, ih]

lemma collectJson_congr (chrono : ChronoEnv) (urls : UrlEnv) (t1 t2 : Target) (j : Json)
    (hn : t1.name = t2.name) (hb : t1.base_url = t2.base_url) (hd : t1.delay = t2.delay)
    (hk : t1.keys = t2.keys) :
    collectJson chrono urls t1 j = collectJson chrono urls t2 j := by
  cases hk2 : t2.keys with
  | none => simp only [collectJson, hk, hk2]
  | some keys =>
    simp only [collectJson, hk, hk2]
    cases hdg : Json.dotGet j keys.chapters with
    | none => simp only [hdg]
    | some chaptersJson =>
      simp only [hdg]
      cases chaptersJson with
      | arr elems => exact parseJsonElems_congr chrono urls t1 t2 keys elems hn hb hd
      | null => rfl
      | bool b => rfl
      | num n => rfl
      | str s => rfl
      | obj fields => rfl

lemma parse_json_congr (chrono : ChronoEnv) (urls : UrlEnv) (t1 t2 : Target) (j : Json)
    (hn : t1.name = t2.name) (hb : t1.base_url = t2.base_url) (hd : t1.delay = t2.delay)
    (hk : t1.keys = t2.keys) (ha : t1.ascending_source = t2.ascending_source) :
    parse_json chrono urls t1 j = parse_json chrono urls t2 j := by
  unfold parse_json
  rw [ha, collectJson_congr chrono urls t1 t2 j hn hb hd hk]

lemma assembleChapter_congr {Elem : Type} (env : ScraperEnv Elem) (chrono : ChronoEnv)
    (urls : UrlEnv) (now : Int) (t1 t2 : Target) (tags : TargetTags) (e : Elem)
    (hn : t1.name = t2.name) (hb : t1.base_url = t2.base_url) (hd : t1.delay = t2.delay) :
    assembleChapter env chrono urls now t1 tags e
      = assembleChapter env chrono urls now t2 tags e := by
  unfold assembleChapter
  rw [hn, hb, delayDays_congr t1 t2 hd]

lemma collectHtml_congr {Elem : Type} (env : ScraperEnv Elem) (chrono : ChronoEnv)
    (urls : UrlEnv) (now : Int) (t1 t2 : Target) (src : String)
    (hn : t1.name = t2.name) (hb : t1.base_url = t2.base_url) (hd : t1.delay = t2.delay)
    (ht : t1.tags = t2.tags) :
    collectHtml env chrono urls now t1 src = collectHtml env chrono urls now t2 src := by
  cases ht2 : t2.tags with
  | none => simp only [collectHtml, ht, ht2]
  | some tags =>
    simp only [collectHtml, ht, ht2]
    cases hms : make_selector env tags.chapters_tag with
    | error err => simp only [hms]
    | ok sel =>
      simp only [hms]
      have hfun : (fun e => (assembleChapter env chrono urls now t1 tags e).toOption)
          = fun e => (assembleChapter env chrono urls now t2 tags e).toOption := by
        funext e
        rw [assembleChapter_congr env chrono urls now t1 t2 tags e hn hb hd]
      rw [hfun]

lemma parse_html_congr {Elem : Type} (env : ScraperEnv Elem) (chrono : ChronoEnv)
    (urls : UrlEnv) (now : Int) (t1 t2 : Target) (src : String)
    (hn : t1.name = t2.name) (hb : t1.base_url = t2.base_url) (hd : t1.delay = t2.delay)
    (ht : t1.tags = t2.tags) (ha : t1.ascending_source = t2.ascending_source) :
    parse_html env chrono urls now t1 src = parse_html env chrono urls now t2 src := by
  unfold parse_html
  rw [ha, collectHtml_congr env chrono urls now t1 t2 src hn hb hd ht]

lemma except_map_reverse {α : Type} (x : Except String (List α)) :
    Except.map (applyAscending false) x
      = Except.map List.reverse (Except.map (applyAscending true) x) := by
  cases x <;> rfl

/-- C7 (the code diverges from the claim): parse_rss never reads the
configured delay, and its chapter literal carries no announced_at field
at all, so its output is identical for every delay setting instead of
carrying announced_at equal to date plus the delay. -/
theorem parse_rss_ignores_delay (feeds : FeedEnv) (urls : UrlEnv) (now : Int) (t : Target)
    (src : String) (d : Option Nat) :
    parse_rss feeds urls now { t with delay := d } src = parse_rss feeds urls now t src :=
  parse_rss_congr feeds urls now _ _ src rfl rfl rfl

lemma remove_tracker_cons (x : Worker) (xs : List Worker) (w : Worker) :
    remove_tracker (x :: xs) w =
      if workerEq x w then xs else x :: remove_tracker xs w := by
  unfold remove_tracker get_tracker_index
  by_cases h : workerEq x w
  · simp [h]
  · simp only [h, Bool.false_eq_true, if_false]
    cases h2 : get_tracker_index xs w with
    | none =>
      unfold get_tracker_index at h2
      rw [h2]
      rfl
    | some i =>
      unfold get_tracker_index at h2
      rw [h2]
      rfl

lemma workerEq_gofer_iff (w : Worker) : workerEq w .gofer = true ↔ w = .gofer := by
  cases w <;> simp [workerEq]

lemma get_tracker_index_none (t : List Worker) (w : Worker)
    (h : t.countP (fun x => workerEq x w) = 0) : get_tracker_index t w = none := by
  induction t with
  | nil => rfl
  | cons x xs ih =>
    rw [List.countP_cons] at h
    by_cases hx : workerEq x w
    · simp [hx] at h
    · unfold get_tracker_index
      simp only [hx, Bool.false_eq_true, if_false]
      rw [ih (by omega)]
      rfl

lemma start_gofer_free (t : List Worker) (h : goferCount t = 0) :
    start_gofer t = { res := .ok (), tracker := t ++ [.gofer], spawned := [.gofer] } := by
  unfold start_gofer
  rw [get_tracker_index_none t .gofer h]
  rfl

/-- C9: a tracked Gofer makes start_gofer reject with the tracker and the
spawn set untouched; when exactly one Gofer entry is tracked, observing
its completion removes exactly that entry (the rest of the tracker is
preserved in order), after which start_gofer succeeds and tracks a Gofer
again. -/
theorem gofer_single_instance (t : List Worker) (http trig : Bool) :
    ((get_tracker_index t .gofer).isSome = true →
      start_gofer t
        = { res := .error ("Gofer is already running."), tracker := t, spawned := [] })
    ∧ (goferCount t = 1 →
        ∃ t1 t2, t = t1 ++ Worker.gofer :: t2
          ∧ goferCount t1 = 0 ∧ goferCount t2 = 0
          ∧ (handleCompletion ⟨t, http, trig⟩ .gofer).fst.tracker = t1 ++ t2
          ∧ start_gofer (t1 ++ t2)
              = { res := .ok ()
                  tracker := (t1 ++ t2) ++ [.gofer]
                  spawned := [.gofer] }) := by
  constructor
  · intro h
    unfold start_gofer
    rw [if_pos h]
  · intro h
    have key : ∀ s : List Worker, goferCount s = 1 →
        ∃ t1 t2, s = t1 ++ Worker.gofer :: t2
          ∧ goferCount t1 = 0 ∧ goferCount t2 = 0
          ∧ remove_tracker s .gofer = t1 ++ t2 := by
      intro s hs
      induction s with
      | nil => simp [goferCount] at hs
      | cons x xs ih =>
        unfold goferCount at hs
        rw [List.countP_cons] at hs
        by_cases hx : workerEq x .gofer
        · have hx2 : x = .gofer := (workerEq_gofer_iff x).mp hx
          simp only [hx, if_true] at hs
          refine ⟨[], xs, by simp [hx2], rfl, ?_, ?_⟩
          · unfold goferCount
            omega
          · rw [remove_tracker_cons, if_pos hx]
            rfl
        · simp only [hx, Bool.false_eq_true, if_false, Nat.add_zero] at hs
          obtain ⟨t1, t2, het, h1, h2, hrm⟩ := ih hs
          refine ⟨x :: t1, t2, by rw [het]; rfl, ?_, h2, ?_⟩
          · unfold goferCount
            rw [List.countP_cons]
            simp only [hx, Bool.false_eq_true, if_false, Nat.add_zero]
            exact h1
          · rw [remove_tracker_cons, if_neg (by simp [hx]), hrm]
            rfl
    obtain ⟨t1, t2, het, h1, h2, hrm⟩ := key t h
    refine ⟨t1, t2, het, h1, h2, ?_, ?_⟩
    · exact hrm
    · apply start_gofer_free
      unfold goferCount at h1 h2 ⊢
      rw [List.countP_append]
      omega

/-- Witness for C9 at concrete trackers. -/
theorem gofer_single_instance_witness :
    (start_gofer [Worker.gofer]
      = { res := .error ("Gofer is already running.")
          tracker := [Worker.gofer]
          spawned := [] })
    ∧ (∃ t1 t2, ([Worker.discordBot, Worker.gofer] : List Worker) = t1 ++ Worker.gofer :: t2
        ∧ goferCount t1 = 0 ∧ goferCount t2 = 0
        ∧ (handleCompletion ⟨[Worker.discordBot, Worker.gofer], true, true⟩ .gofer).fst.tracker
            = t1 ++ t2
        ∧ start_gofer (t1 ++ t2)
            = { res := .ok ()
                tracker := (t1 ++ t2) ++ [.gofer]
                spawned := [.gofer] }) :=
  ⟨(gofer_single_instance [Worker.gofer] true true).1 (by decide),
   (gofer_single_instance [Worker.discordBot, Worker.gofer] true true).2 (by decide)⟩

/-- C2 (the code diverges from the claim): in the continuous-mode loop
every already-running or precondition rejection is a bail propagated by
the question mark at the call site, so handleMessage yields the error
that main returns, terminating the process, instead of dropping the
event and continuing. -/
theorem dispatcher_rejection_terminates_main :
    handleMessage ⟨[Worker.gofer], true, false⟩ (.startGofer true)
      = .error ("Gofer is already running.")
    ∧ handleMessage ⟨[], false, false⟩ .startAnnouncer
      = .error ("Discord API has not been received by core control.")
    ∧ handleMessage ⟨[Worker.announcer], true, false⟩ .startAnnouncer
      = .error ("Announcer is already running.")
    ∧ handleMessage ⟨[Worker.discordBot], true, false⟩ .startDiscordBot
      = .error ("Discord Bot is already running.") := by
  refine ⟨rfl, rfl, rfl, rfl⟩

/-- C1 (the code diverges from the claim): a run of announce_for_server
that found the flag false and then failed in send_chapters returns
through the question mark before the final flag clear, leaving
is_announcing stuck true. -/
theorem announce_flag_stuck_on_send_failure :
    (announce_for_server 10 false { identifier := ("g1"), feed_channel_identifier := ("123") }
        c1Db).result = .error ("send_chapters failed")
    ∧ get_announcing_server_flag
        (announce_for_server 10 false
          { identifier := ("g1"), feed_channel_identifier := ("123") } c1Db).db ("g1")
      = .ok true := by
  refine ⟨by decide, by decide⟩


lemma tripleMatches_rowOfChapter (now : Int) (c : Chapter) :
    tripleMatches c (rowOfChapter now c) = true := by
  simp [tripleMatches, rowOfChapter]

lemma save_chapters_single (now : Int) (c : Chapter) (db : Db) :
    save_chapters now [c] db =
      if db.chapters.any (tripleMatches c) then db
      else { db with chapters := db.chapters ++ [rowOfChapter now c] } :=
  rfl

lemma any_iff_tripleCount_pos (db : Db) (c : Chapter) :
    db.chapters.any (tripleMatches c) = true ↔ 0 < tripleCount db c := by
  unfold tripleCount
  simp [List.any_eq_true, List.length_pos_iff_exists_mem, List.mem_filter]

/-- C5: save_chapters never inserts a row whose (manga, title, number)
triple is already stored; saving the same chapter twice yields, for its
triple, one row more than zero stored copies and never more than the
greater of the old count and one, so from any state without the triple
exactly one row remains.  The Rust method returns Ok on all these paths
(the embedding is total). -/
theorem save_chapters_unique_triple (db : Db) (c : Chapter) (t1 t2 : Int) :
    (db.chapters.any (tripleMatches c) = true → save_chapters t1 [c] db = db)
    ∧ tripleCount (save_chapters t2 [c] (save_chapters t1 [c] db)) c
        = max (tripleCount db c) 1
    ∧ (tripleCount db c = 0 →
        tripleCount (save_chapters t2 [c] (save_chapters t1 [c] db)) c = 1) := by
  have hmain : tripleCount (save_chapters t2 [c] (save_chapters t1 [c] db)) c
      = max (tripleCount db c) 1 := by
    by_cases h : db.chapters.any (tripleMatches c) = true
    · rw [save_chapters_single t1 c db, if_pos h, save_chapters_single t2 c db, if_pos h]
      have hpos : 0 < tripleCount db c := (any_iff_tripleCount_pos db c).mp h
      exact (Nat.max_eq_left hpos).symm
    · have h0 : tripleCount db c = 0 := by
        rcases Nat.eq_zero_or_pos (tripleCount db c) with h0 | hpos
        · exact h0
        · exact absurd ((any_iff_tripleCount_pos db c).mpr hpos) h
      rw [save_chapters_single t1 c db, if_neg h, save_chapters_single t2]
      have hany2 : ((db.chapters ++ [rowOfChapter t1 c]).any (tripleMatches c)) = true := by
        simp [List.any_append, tripleMatches_rowOfChapter]
      rw [if_pos hany2]
      unfold tripleCount at h0 ⊢
      simp only [List.filter_append, List.length_append]
      simp [tripleMatches_rowOfChapter, h0]
  refine ⟨?_, hmain, ?_⟩
  · intro h
    rw [save_chapters_single, if_pos h]
  · intro h0
    rw [hmain, h0]
    simp

/-- Witness for C5: a stored duplicate is skipped, and a double save into
an empty store leaves exactly one row. -/
theorem save_chapters_unique_triple_witness :
    (save_chapters 9 [c5Chapter]
        { chapters := [rowOfChapter 7 c5Chapter], servers := [] }
      = { chapters := [rowOfChapter 7 c5Chapter], servers := [] })
    ∧ tripleCount
        (save_chapters 8 [c5Chapter] (save_chapters 7 [c5Chapter]
          { chapters := [], servers := [] })) c5Chapter = 1 :=
  ⟨(save_chapters_unique_triple
      { chapters := [rowOfChapter 7 c5Chapter], servers := [] } c5Chapter 9 9).1 (by decide),
   (save_chapters_unique_triple { chapters := [], servers := [] } c5Chapter 7 8).2.2
     (by decide)⟩

lemma find?_append_none {α : Type} {p : α → Bool} (l1 l2 : List α)
    (h : l1.find? p = none) : (l1 ++ l2).find? p = l2.find? p := by
  induction l1 with
  | nil => rfl
  | cons x xs ih =>
    cases hp : p x with
    | true => simp [List.find?_cons_of_pos, hp] at h
    | false =>
      rw [List.find?_cons_of_neg _ (by simp [hp])] at h
      simp [List.find?_cons_of_neg, hp, ih h]

/-- C10: configuring a feed channel for a destination with no stored row
inserts a row whose watermark is the configuration time, so (by the
second part) chapters whose announced_at is not after that moment are
never returned by get_unnanounced_chapters for it; and re-setting the
already-stored channel value returns success without modifying the
store. -/
theorem set_feed_channel_fresh_watermark :
    (∀ (db : Db) (gid ch : String) (tconf : Int),
        serverFor db gid = none →
          get_last_announced_time (set_feed_channel tconf gid ch db) gid = .ok tconf)
    ∧ (∀ (db2 : Db) (gid : String) (tq w : Int) (L : List Chapter) (c : Chapter),
        get_last_announced_time db2 gid = .ok w →
        get_unnanounced_chapters tq gid db2 = .ok L →
        c ∈ L → w < c.announced_at)
    ∧ (∀ (db2 : Db) (gid ch : String) (t2 : Int),
        get_feed_channel db2 gid = .ok ch → set_feed_channel t2 gid ch db2 = db2) := by
  refine ⟨?_, ?_, ?_⟩
  · intro db gid ch tconf h
    have hfc : get_feed_channel db gid
        = .error ("Feed channel has not been set for this server.") := by
      unfold get_feed_channel
      rw [h]
    unfold set_feed_channel
    rw [hfc]
    unfold get_last_announced_time serverFor
    unfold serverFor at h
    rw [find?_append_none _ _ h]
    simp [List.find?_cons_of_pos]
  · intro db2 gid tq w L c hw hu hc
    unfold get_unnanounced_chapters at hu
    rw [hw] at hu
    have hL : (unannouncedRows w tq db2.chapters).map rowToChapter = L := by
      injection hu
    rw [← hL] at hc
    obtain ⟨r, hr, hrc⟩ := List.mem_map.mp hc
    unfold unannouncedRows at hr
    have hr2 : r ∈ db2.chapters.filter
        (fun r => decide (w < r.announcedAt) && decide (r.announcedAt ≤ tq)) :=
      (List.perm_insertionSort dateLe _).mem_iff.mp hr
    have hpred := (List.mem_filter.mp hr2).2
    simp only [Bool.and_eq_true, decide_eq_true_eq] at hpred
    rw [← hrc]
    exact hpred.1
  · intro db2 gid ch t2 h
    unfold set_feed_channel
    rw [h]
    simp

/-- Witness for C10: a fresh configuration at time 5, a query returning
the chapter announced at 7, and an idempotent re-configuration. -/
theorem set_feed_channel_fresh_watermark_witness :
    get_last_announced_time
        (set_feed_channel 5 ("g") ("c") { chapters := [], servers := [] }) ("g") = .ok 5
    ∧ (5 : Int) < c10Chapter.announced_at
    ∧ set_feed_channel 9 ("g") ("c") c10Db = c10Db :=
  ⟨set_feed_channel_fresh_watermark.1 { chapters := [], servers := [] } ("g") ("c") 5
     (by decide),
   set_feed_channel_fresh_watermark.2.1 c10Db ("g") 10 5 [c10Chapter] c10Chapter
     (by decide) (by decide) (by decide),
   set_feed_channel_fresh_watermark.2.2 c10Db ("g") ("c") 9 (by decide)⟩


/-- C6: for each of the three parsers, flipping ascending_source (all
other target fields unchanged) exactly reverses the output, so after the
correction callers always receive oldest-first order. -/
theorem parsers_reverse_on_descending {Elem : Type} (feeds : FeedEnv)
    (env : ScraperEnv Elem) (chrono : ChronoEnv) (urls : UrlEnv) (now : Int) (t : Target)
    (src : String) (j : Json) :
    parse_rss feeds urls now { t with ascending_source := false } src
      = Except.map List.reverse
          (parse_rss feeds urls now { t with ascending_source := true } src)
    ∧ parse_json chrono urls { t with ascending_source := false } j
      = Except.map List.reverse
          (parse_json chrono urls { t with ascending_source := true } j)
    ∧ parse_html env chrono urls now { t with ascending_source := false } src
      = Except.map List.reverse
          (parse_html env chrono urls now { t with ascending_source := true } src) := by
  refine ⟨?_, ?_, ?_⟩
  · unfold parse_rss
    rw [collectRss_congr feeds urls now { t with ascending_source := false }
      { t with ascending_source := true } src rfl rfl]
    exact except_map_reverse _
  · unfold parse_json
    rw [collectJson_congr chrono urls { t with ascending_source := false }
      { t with ascending_source := true } j rfl rfl rfl rfl]
    exact except_map_reverse _
  · unfold parse_html
    rw [collectHtml_congr env chrono urls now { t with ascending_source := false }
      { t with ascending_source := true } src rfl rfl rfl rfl]
    exact except_map_reverse _


lemma parseJsonElement_ok_announced (chrono : ChronoEnv) (urls : UrlEnv) (t : Target)
    (keys : TargetKeys) (cj : Json) (ch : Chapter)
    (h : parseJsonElement chrono urls t keys cj = .ok ch) :
    ch.announced_at = ch.date + nsPerDay * delayDays t := by
  unfold parseJsonElement at h
  repeat' split at h
  all_goals first
    | exact Except.noConfusion h
    | (injection h with h2
       rw [← h2])

lemma parseJsonElems_ok_announced (chrono : ChronoEnv) (urls : UrlEnv) (t : Target)
    (keys : TargetKeys) (l : List Json) (L : List Chapter)
    (h : parseJsonElems chrono urls t keys l = .ok L) :
    ∀ ch ∈ L, ch.announced_at = ch.date + nsPerDay * delayDays t := by
  induction l generalizing L with
  | nil =>
    unfold parseJsonElems at h
    injection h with h2
    simp [← h2]
  | cons cj rest ih =>
    unfold parseJsonElems at h
    by_cases hs : skipElement keys.skip cj
    · rw [if_pos hs] at h
      exact ih L h
    · rw [if_neg hs] at h
      cases he : parseJsonElement chrono urls t keys cj with
      | error e =>
        rw [he] at h
        exact Except.noConfusion h
      | ok ch0 =>
        rw [he] at h
        cases hr : parseJsonElems chrono urls t keys rest with
        | error e =>
          rw [hr] at h
          exact Except.noConfusion h
        | ok chs =>
          rw [hr] at h
          injection h with h2
          intro ch hch
          rw [← h2] at hch
          rcases List.mem_cons.mp hch with hh | htl
          · rw [hh]
            exact parseJsonElement_ok_announced chrono urls t keys cj ch0 he
          · exact ih chs hr ch htl

lemma collectJson_ok_announced (chrono : ChronoEnv) (urls : UrlEnv) (t : Target) (j : Json)
    (L : List Chapter) (h : collectJson chrono urls t j = .ok L) :
    ∀ ch ∈ L, ch.announced_at = ch.date + nsPerDay * delayDays t := by
  unfold collectJson at h
  repeat' split at h
  all_goals first
    | exact Except.noConfusion h
    | exact parseJsonElems_ok_announced chrono urls t _ _ L h

lemma mem_applyAscending {α : Type} (asc : Bool) (l : List α) (x : α)
    (h : x ∈ applyAscending asc l) : x ∈ l := by
  unfold applyAscending at h
  by_cases ha : asc
  · rw [if_pos ha] at h
    exact h
  · rw [if_neg ha] at h
    exact List.mem_reverse.mp h

lemma parse_json_ok_announced (chrono : ChronoEnv) (urls : UrlEnv) (t : Target) (j : Json)
    (L : List Chapter) (h : parse_json chrono urls t j = .ok L) :
    ∀ ch ∈ L, ch.announced_at = ch.date + nsPerDay * delayDays t := by
  unfold parse_json at h
  cases hc : collectJson chrono urls t j with
  | error e =>
    rw [hc] at h
    exact Except.noConfusion h
  | ok L0 =>
    rw [hc] at h
    injection h with h2
    intro ch hch
    rw [← h2] at hch
    exact collectJson_ok_announced chrono urls t j L0 hc ch (mem_applyAscending _ _ _ hch)

lemma assembleChapter_ok_announced {Elem : Type} (env : ScraperEnv Elem)
    (chrono : ChronoEnv) (urls : UrlEnv) (now : Int) (t : Target) (tags : TargetTags)
    (e : Elem) (ch : Chapter)
    (h : assembleChapter env chrono urls now t tags e = .ok ch) :
    ch.announced_at = ch.date + nsPerDay * delayDays t := by
  unfold assembleChapter at h
  repeat' split at h
  all_goals first
    | exact Except.noConfusion h
    | (injection h with h2
       rw [← h2])

lemma collectHtml_ok_announced {Elem : Type} (env : ScraperEnv Elem) (chrono : ChronoEnv)
    (urls : UrlEnv) (now : Int) (t : Target) (src : String) (L : List Chapter)
    (h : collectHtml env chrono urls now t src = .ok L) :
    ∀ ch ∈ L, ch.announced_at = ch.date + nsPerDay * delayDays t := by
  unfold collectHtml at h
  repeat' split at h
  all_goals first
    | exact Except.noConfusion h
    | (injection h with h2
       intro ch hch
       rw [← h2] at hch
       obtain ⟨e, he, hsome⟩ := List.mem_filterMap.mp hch
       cases ha : assembleChapter env chrono urls now t _ e with
       | error err =>
         rw [ha] at hsome
         exact Option.noConfusion hsome
       | ok ch0 =>
         rw [ha] at hsome
         injection hsome with h3
         rw [← h3]
         exact assembleChapter_ok_announced env chrono urls now t _ e ch0 ha)

lemma parse_html_ok_announced {Elem : Type} (env : ScraperEnv Elem) (chrono : ChronoEnv)
    (urls : UrlEnv) (now : Int) (t : Target) (src : String) (L : List Chapter)
    (h : parse_html env chrono urls now t src = .ok L) :
    ∀ ch ∈ L, ch.announced_at = ch.date + nsPerDay * delayDays t := by
  unfold parse_html at h
  cases hc : collectHtml env chrono urls now t src with
  | error e =>
    rw [hc] at h
    exact Except.noConfusion h
  | ok L0 =>
    rw [hc] at h
    injection h with h2
    intro ch hch
    rw [← h2] at hch
    exact collectHtml_ok_announced env chrono urls now t src L0 hc ch
      (mem_applyAscending _ _ _ hch)

/-- C8: every chapter produced by the JSON or the HTML parser carries
announced_at equal to date plus the configured delay in days (exact
datetime arithmetic in nanoseconds); with the delay unset or zero,
announced_at equals date. -/
theorem announced_at_is_date_plus_delay :
    (∀ (chrono : ChronoEnv) (urls : UrlEnv) (t : Target) (j : Json) (L : List Chapter),
        parse_json chrono urls t j = .ok L → ∀ ch ∈ L,
          ch.announced_at = ch.date + nsPerDay * delayDays t
          ∧ (delayDays t = 0 → ch.announced_at = ch.date))
    ∧ (∀ (Elem : Type) (env : ScraperEnv Elem) (chrono : ChronoEnv) (urls : UrlEnv)
        (now : Int) (t : Target) (src : String) (L : List Chapter),
        parse_html env chrono urls now t src = .ok L → ∀ ch ∈ L,
          ch.announced_at = ch.date + nsPerDay * delayDays t
          ∧ (delayDays t = 0 → ch.announced_at = ch.date)) := by
  constructor
  · intro chrono urls t j L h ch hch
    have heq := parse_json_ok_announced chrono urls t j L h ch hch
    refine ⟨heq, fun h0 => ?_⟩
    rw [heq, h0, mul_zero, add_zero]
  · intro Elem env chrono urls now t src L h ch hch
    have heq := parse_html_ok_announced env chrono urls now t src L h ch hch
    refine ⟨heq, fun h0 => ?_⟩
    rw [heq, h0, mul_zero, add_zero]

/-- Witness for C8: a JSON run with a two-day delay and an HTML run with
a one-day delay. -/
theorem announced_at_is_date_plus_delay_witness :
    (c8JsonChapter.announced_at
        = c8JsonChapter.date + nsPerDay * delayDays exJsonTargetDelay)
    ∧ (c8HtmlChapter.announced_at
        = c8HtmlChapter.date + nsPerDay * delayDays exHtmlTarget) :=
  ⟨(announced_at_is_date_plus_delay.1 dummyChrono dummyUrls exJsonTargetDelay exDocGood
      [c8JsonChapter] (by decide) c8JsonChapter (by decide)).1,
   (announced_at_is_date_plus_delay.2 Nat exScraper dummyChrono dummyUrls 100 exHtmlTarget
      ("doc") [c8HtmlChapter] (by decide) c8HtmlChapter (by decide)).1⟩


/-- C3 counterexample: one JSON element missing its configured title
dot-path makes the whole parse fail (the error propagates through the
question mark in the element loop), even though the same document without
that element parses fine; so a per-element failure is not isolated for
the JSON parser. -/
theorem json_element_failure_fatal :
    parse_json dummyChrono dummyUrls exJsonTarget exDocBoth
      = .error ("Could not get value")
    ∧ parse_json dummyChrono dummyUrls exJsonTarget exDocGood
      = .ok [{ manga := ("Manga"), number := ("1"), title := ("T1"), date := 5000000000,
               url := ("x"), logged_at := none, announced_at := 5000000000 }] := by
  refine ⟨by decide, by decide⟩

lemma parseJsonElems_error_of_mem (chrono : ChronoEnv) (urls : UrlEnv) (t : Target)
    (keys : TargetKeys) (l : List Json) (e : Json) (hmem : e ∈ l)
    (hskip : skipElement keys.skip e = false)
    (hfail : ∃ msg, parseJsonElement chrono urls t keys e = .error msg) :
    ∃ msg2, parseJsonElems chrono urls t keys l = .error msg2 := by
  induction l with
  | nil => exact absurd hmem (List.not_mem_nil e)
  | cons x rest ih =>
    rcases List.mem_cons.mp hmem with hx | hrest
    · obtain ⟨msg, hmsg⟩ := hfail
      refine ⟨msg, ?_⟩
      unfold parseJsonElems
      rw [← hx, if_neg (by rw [hskip]; simp), hmsg]
    · by_cases hs : skipElement keys.skip x
      · obtain ⟨msg2, hmsg2⟩ := ih hrest
        refine ⟨msg2, ?_⟩
        unfold parseJsonElems
        rw [if_pos hs, hmsg2]
      · cases he : parseJsonElement chrono urls t keys x with
        | error m =>
          refine ⟨m, ?_⟩
          unfold parseJsonElems
          rw [if_neg hs, he]
        | ok ch0 =>
          obtain ⟨msg2, hmsg2⟩ := ih hrest
          refine ⟨msg2, ?_⟩
          unfold parseJsonElems
          rw [if_neg hs, he, hmsg2]

/-- C3 as amended: a per-element extraction failure is isolated to that
single element and skipped by the HTML parser, whose other elements still
produce their chapters; but in the JSON parser any per-element failure
on an element that is not skip-matched is fatal to the whole parse. -/
theorem element_failure_isolation_amended :
    (∀ (chrono : ChronoEnv) (urls : UrlEnv) (t : Target) (keys : TargetKeys) (j : Json)
        (l : List Json) (e : Json),
        t.keys = some keys →
        j.dotGet keys.chapters = some (.arr l) →
        e ∈ l →
        skipElement keys.skip e = false →
        (∃ msg, parseJsonElement chrono urls t keys e = .error msg) →
        ∃ msg2, parse_json chrono urls t j = .error msg2)
    ∧ (∀ (Elem : Type) (env : ScraperEnv Elem) (chrono : ChronoEnv) (urls : UrlEnv)
        (now : Int) (t : Target) (tags : TargetTags) (src : String)
        (l1 l2 : List Elem) (e : Elem) (msg : String),
        t.tags = some tags →
        env.selectorOk tags.chapters_tag = true →
        env.docSelect src tags.chapters_tag = l1 ++ e :: l2 →
        assembleChapter env chrono urls now t tags e = .error msg →
        parse_html env chrono urls now t src
          = .ok (applyAscending t.ascending_source
              (l1.filterMap (fun x => (assembleChapter env chrono urls now t tags x).toOption)
                ++ l2.filterMap
                    (fun x => (assembleChapter env chrono urls now t tags x).toOption)))) := by
  constructor
  · intro chrono urls t keys j l e hkeys hdg hmem hskip hfail
    obtain ⟨msg2, hmsg2⟩ :=
      parseJsonElems_error_of_mem chrono urls t keys l e hmem hskip hfail
    refine ⟨msg2, ?_⟩
    simp only [parse_json, collectJson, hkeys, hdg, hmsg2]
    rfl
  · intro Elem env chrono urls now t tags src l1 l2 e msg htags hselok hdoc hasm
    have hsel : make_selector env tags.chapters_tag = .ok tags.chapters_tag := by
      unfold make_selector
      rw [if_pos hselok]
    simp only [parse_html, collectHtml, htags, hsel, hdoc]
    simp [List.filterMap_append, List.filterMap_cons, hasm, Except.toOption]
    rfl

/-- Witness for the amended C3 at the concrete documents: the bad JSON
element kills the parse, while the scraper environment with a failing
second element still yields the first chapter. -/
theorem element_failure_isolation_amended_witness :
    (∃ msg2, parse_json dummyChrono dummyUrls exJsonTarget exDocBoth = .error msg2)
    ∧ parse_html exScraper dummyChrono dummyUrls 100 exHtmlTarget ("doc")
        = .ok (applyAscending exHtmlTarget.ascending_source
            (([0] : List Nat).filterMap
                (fun x => (assembleChapter exScraper dummyChrono dummyUrls 100 exHtmlTarget
                  exTags x).toOption)
              ++ ([] : List Nat).filterMap
                  (fun x => (assembleChapter exScraper dummyChrono dummyUrls 100 exHtmlTarget
                    exTags x).toOption))) :=
  ⟨element_failure_isolation_amended.1 dummyChrono dummyUrls exJsonTarget exKeys exDocBoth
      [exElemGood, exElemBad] exElemBad rfl rfl
      (List.mem_cons_of_mem _ (List.mem_cons_self _ _)) (by decide)
      ⟨("Could not get value"), by decide⟩,
   element_failure_isolation_amended.2 Nat exScraper dummyChrono dummyUrls 100 exHtmlTarget
      exTags ("doc") [0] [] 1 ("No attribute a found in tag") rfl (by decide) (by decide)
      (by decide)⟩

lemma find?_updateServers (gid q : String) (f : ServerRow → ServerRow)
    (hf : ∀ r, (f r).guildId = r.guildId) (l : List ServerRow) :
    (updateServers gid f l).find? (fun r => r.guildId == q)
      = Option.map (fun r => if r.guildId == gid then f r else r)
          (l.find? (fun r => r.guildId == q)) := by
  induction l with
  | nil => rfl
  | cons r rs ih =>
    have hpg : (((if r.guildId == gid then f r else r) : ServerRow).guildId == q)
        = (r.guildId == q) := by
      by_cases hg : r.guildId = gid
      · simp [hg, hf]
      · simp [hg]
    simp only [updateServers, List.map_cons, List.find?_cons, hpg]
    cases hq : (r.guildId == q) with
    | true => rfl
    | false => exact ih

lemma countP_updateServers (gid q : String) (f : ServerRow → ServerRow)
    (hf : ∀ r, (f r).guildId = r.guildId) (l : List ServerRow) :
    (updateServers gid f l).countP (fun r => r.guildId == q)
      = l.countP (fun r => r.guildId == q) := by
  induction l with
  | nil => rfl
  | cons r rs ih =>
    simp only [updateServers, List.map_cons, List.countP_cons] at ih ⊢
    have hhead : (((if r.guildId == gid then f r else r) : ServerRow).guildId == q)
        = (r.guildId == q) := by
      by_cases hg : r.guildId = gid
      · simp [hg, hf]
      · simp [hg]
    rw [hhead, ih]

lemma get_last_update_preserving (gid q : String) (f : ServerRow → ServerRow)
    (hg : ∀ r, (f r).guildId = r.guildId)
    (hl : ∀ r, (f r).lastAnnouncedAt = r.lastAnnouncedAt)
    (cs cs2 : List ChapterRow) (l : List ServerRow) :
    get_last_announced_time { chapters := cs, servers := updateServers gid f l } q
      = get_last_announced_time { chapters := cs2, servers := l } q := by
  unfold get_last_announced_time serverFor
  simp only [find?_updateServers gid q f hg l]
  cases hf2 : l.find? (fun r => r.guildId == q) with
  | none => rfl
  | some r =>
    by_cases hgq : r.guildId = gid
    · simp [hgq, hl]
    · simp [hgq]

lemma get_last_setFlagDb (gid q : String) (b : Bool) (db : Db) :
    get_last_announced_time (setFlagDb gid b db) q = get_last_announced_time db q := by
  unfold setFlagDb
  rw [get_last_update_preserving gid q (fun r => { r with isAnnouncing := b })
    (fun _ => rfl) (fun _ => rfl) db.chapters db.chapters db.servers]

lemma count_setFlagDb (gid q : String) (b : Bool) (db : Db) :
    matchingServerCount q (setFlagDb gid b db) = matchingServerCount q db :=
  countP_updateServers gid q (fun r => { r with isAnnouncing := b }) (fun _ => rfl) db.servers

lemma count_setLastDb (gid q : String) (t : Int) (db : Db) :
    matchingServerCount q (setLastDb gid t db) = matchingServerCount q db :=
  countP_updateServers gid q (fun r => { r with lastAnnouncedAt := some t }) (fun _ => rfl)
    db.servers

lemma serverFor_setFlagDb (gid q : String) (b : Bool) (db : Db) :
    serverFor (setFlagDb gid b db) q
      = Option.map (fun r => if r.guildId == gid then { r with isAnnouncing := b } else r)
          (serverFor db q) :=
  find?_updateServers gid q (fun r => { r with isAnnouncing := b }) (fun _ => rfl) db.servers

lemma get_last_setLastDb (gid : String) (t : Int) (db : Db) (r : ServerRow)
    (hsf : serverFor db gid = some r) :
    get_last_announced_time (setLastDb gid t db) gid = .ok t := by
  unfold serverFor at hsf
  have hprd := List.find?_some hsf
  unfold get_last_announced_time setLastDb serverFor
  rw [find?_updateServers gid gid (fun r => { r with lastAnnouncedAt := some t })
    (fun _ => rfl) db.servers, hsf]
  have hprd2 : r.guildId = gid := by simpa using hprd
  simp [hprd2]


/-- C4: with the destination flag clear, a channel identifier that
parses, and a send that succeeds, announce_for_server returns Ok and
hands send_chapters exactly the stored chapters with
watermark < announcedAt and announcedAt <= now, in ascending date order;
the watermark advances to now exactly when that set is non-empty and is
otherwise left unchanged. -/
theorem announce_sends_exact_window (db : Db) (server : Server) (now w : Int) (cid : Nat)
    (hflag : get_announcing_server_flag db server.identifier = .ok false)
    (hw : get_last_announced_time db server.identifier = .ok w)
    (hc : get_channel_id server.feed_channel_identifier = .ok cid) :
    (announce_for_server now true server db).result = .ok ()
    ∧ ((unannouncedRows w now db.chapters).map rowToChapter = [] →
        (announce_for_server now true server db).sentBatch = none
        ∧ get_last_announced_time (announce_for_server now true server db).db
            server.identifier = .ok w)
    ∧ ((unannouncedRows w now db.chapters).map rowToChapter ≠ [] →
        (announce_for_server now true server db).sentBatch
          = some ((unannouncedRows w now db.chapters).map rowToChapter)
        ∧ get_last_announced_time (announce_for_server now true server db).db
            server.identifier = .ok now)
    ∧ (∀ ch ∈ (unannouncedRows w now db.chapters).map rowToChapter,
        w < ch.announced_at ∧ ch.announced_at ≤ now)
    ∧ List.Pairwise (fun a b => a.date ≤ b.date)
        ((unannouncedRows w now db.chapters).map rowToChapter) := by
  obtain ⟨r, hsf, hprd, hla⟩ :
      ∃ r, serverFor db server.identifier = some r
        ∧ (r.guildId == server.identifier) = true
        ∧ r.lastAnnouncedAt = some w := by
    cases hsf : serverFor db server.identifier with
    | none =>
      unfold get_announcing_server_flag at hflag
      rw [hsf] at hflag
      exact Except.noConfusion hflag
    | some r =>
      have hprd := List.find?_some hsf
      unfold get_last_announced_time at hw
      simp only [hsf] at hw
      cases hla : r.lastAnnouncedAt with
      | none =>
        rw [hla] at hw
        exact Except.noConfusion hw
      | some t0 =>
        rw [hla] at hw
        injection hw with h2
        exact ⟨r, rfl, hprd, by rw [hla, h2]⟩
  have hcount : ¬ matchingServerCount server.identifier db = 0 := by
    unfold matchingServerCount
    have hmem : r ∈ db.servers := by
      unfold serverFor at hsf
      exact List.mem_of_find?_eq_some hsf
    have hpos : 0 < db.servers.countP (fun x => x.guildId == server.identifier) :=
      List.countP_pos_iff.mpr ⟨r, hmem, hprd⟩
    omega
  have hset1 : set_announcing_server_flag server.identifier true db
      = .ok (setFlagDb server.identifier true db) := by
    unfold set_announcing_server_flag
    rw [if_neg hcount]
  have hlast1 : get_last_announced_time (setFlagDb server.identifier true db)
      server.identifier = .ok w := by
    rw [get_last_setFlagDb]
    exact hw
  have hun : get_unnanounced_chapters now server.identifier
      (setFlagDb server.identifier true db)
      = .ok ((unannouncedRows w now db.chapters).map rowToChapter) := by
    unfold get_unnanounced_chapters
    rw [hlast1]
    rfl
  have hcnt1 : ¬ matchingServerCount server.identifier
      (setFlagDb server.identifier true db) = 0 := by
    rw [count_setFlagDb]
    exact hcount
  have hsf1 : serverFor (setFlagDb server.identifier true db) server.identifier
      = some { r with isAnnouncing := true } := by
    rw [serverFor_setFlagDb, hsf]
    have hprd2 : r.guildId = server.identifier := by simpa using hprd
    simp [hprd2]
  have hset2 : set_last_announced_time server.identifier now
      (setFlagDb server.identifier true db)
      = .ok (setLastDb server.identifier now (setFlagDb server.identifier true db)) := by
    unfold set_last_announced_time
    rw [if_neg hcnt1]
  have hcnt2 : ¬ matchingServerCount server.identifier
      (setLastDb server.identifier now (setFlagDb server.identifier true db)) = 0 := by
    rw [count_setLastDb]
    exact hcnt1
  have hset3 : set_announcing_server_flag server.identifier false
      (setLastDb server.identifier now (setFlagDb server.identifier true db))
      = .ok (setFlagDb server.identifier false
          (setLastDb server.identifier now (setFlagDb server.identifier true db))) := by
    unfold set_announcing_server_flag
    rw [if_neg hcnt2]
  have hsetE : set_announcing_server_flag server.identifier false
      (setFlagDb server.identifier true db)
      = .ok (setFlagDb server.identifier false (setFlagDb server.identifier true db)) := by
    unfold set_announcing_server_flag
    rw [if_neg hcnt1]
  have hlastE : get_last_announced_time
      (setFlagDb server.identifier false (setFlagDb server.identifier true db))
      server.identifier = .ok w := by
    rw [get_last_setFlagDb, get_last_setFlagDb]
    exact hw
  have hlastN : get_last_announced_time
      (setFlagDb server.identifier false
        (setLastDb server.identifier now (setFlagDb server.identifier true db)))
      server.identifier = .ok now := by
    rw [get_last_setFlagDb]
    exact get_last_setLastDb server.identifier now _ _ hsf1
  have hwindow : ∀ ch ∈ (unannouncedRows w now db.chapters).map rowToChapter,
      w < ch.announced_at ∧ ch.announced_at ≤ now := by
    intro ch hch
    obtain ⟨rr, hrr, hrc⟩ := List.mem_map.mp hch
    unfold unannouncedRows at hrr
    have hrr2 := (List.perm_insertionSort dateLe _).mem_iff.mp hrr
    have hpred2 := (List.mem_filter.mp hrr2).2
    simp only [Bool.and_eq_true, decide_eq_true_eq] at hpred2
    rw [← hrc]
    exact hpred2
  have hsorted : List.Pairwise (fun a b => a.date ≤ b.date)
      ((unannouncedRows w now db.chapters).map rowToChapter) := by
    unfold unannouncedRows
    have hs := List.sorted_insertionSort dateLe
      (db.chapters.filter fun r => decide (w < r.announcedAt) && decide (r.announcedAt ≤ now))
    exact List.pairwise_map.mpr hs
  by_cases hE : (unannouncedRows w now db.chapters).map rowToChapter = []
  · have hrun : announce_for_server now true server db
        = { db := setFlagDb server.identifier false (setFlagDb server.identifier true db),
            result := .ok (), sentBatch := none } := by
      simp only [announce_for_server, hflag, hset1, hun, hE, List.length_nil,
        gt_iff_lt, lt_self_iff_false, if_false, hsetE]
    refine ⟨by rw [hrun], fun _ => ⟨by rw [hrun], ?_⟩, fun hne => absurd hE hne,
      hwindow, hsorted⟩
    rw [hrun]
    exact hlastE
  · have hlen : 0 < ((unannouncedRows w now db.chapters).map rowToChapter).length :=
      List.length_pos.mpr hE
    have hrun : announce_for_server now true server db
        = { db := setFlagDb server.identifier false
              (setLastDb server.identifier now (setFlagDb server.identifier true db)),
            result := .ok (),
            sentBatch := some ((unannouncedRows w now db.chapters).map rowToChapter) } := by
      simp only [announce_for_server, hflag, hset1, hun, hc, hset2, hset3]
      rw [if_pos hlen]
      simp
    refine ⟨by rw [hrun], fun hEmp => absurd hEmp hE, fun _ => ⟨by rw [hrun], ?_⟩,
      hwindow, hsorted⟩
    rw [hrun]
    exact hlastN

/-- Witness for C4 at a concrete store: watermark 0, now 10, chapters
announced at 3 and 5 inside the window (dates 9 and 2, so delivery order
is date 2 then date 9) and one at 20 outside it. -/
theorem announce_sends_exact_window_witness :
    (announce_for_server 10 true
        { identifier := ("g2"), feed_channel_identifier := ("77") } c4Db).result = .ok ()
    ∧ (announce_for_server 10 true
        { identifier := ("g2"), feed_channel_identifier := ("77") } c4Db).sentBatch
        = some ((unannouncedRows 0 10 c4Db.chapters).map rowToChapter)
    ∧ get_last_announced_time
        (announce_for_server 10 true
          { identifier := ("g2"), feed_channel_identifier := ("77") } c4Db).db ("g2")
        = .ok 10 :=
  have h := announce_sends_exact_window c4Db
    { identifier := ("g2"), feed_channel_identifier := ("77") } 10 0 77
    (by decide) (by decide) (by decide)
  ⟨h.1, (h.2.2.1 (by decide)).1, (h.2.2.1 (by decide)).2⟩

end DMango
